import Mathlib

/-!
Verification of the `FoodContract` chaincode (`src/chaincode/src/food.ts`) of
the hyperledger-food-supply-chain repository.

The contract is a set of transaction functions over Hyperledger Fabric's
world state, which the spec describes as an abstract transactional
key-value store whose range scan yields entries in ascending key order.
We embed the store as an association list kept sorted by key
(`putState` is a sorted insert-or-replace), so a full range scan is the
list itself.

Stored bytes are modelled by `Bytes`: either the `JSON.stringify`
rendering of a JSON value (`Bytes.json v` stands for the byte string
`Json.render v`) or an opaque non-JSON string (`Bytes.raw s`).
`JSON.parse` on such bytes is modelled by `Bytes.parse`: it recovers the
value from well-formed bytes and fails on raw bytes.  `Json.render`
follows `JSON.stringify` with no spacing: object fields are emitted in
the order they were inserted (JS object literals fix that order at the
construction site), strings are quoted and escaped, numbers are decimal
literals (`JNum` is a decimal mantissa/exponent pair, covering every
numeric literal the contract uses).
-/

namespace Food

/-- Decimal number as JavaScript renders the contract's literals:
value `m / 10 ^ e` (e.g. `⟨195, 1⟩` is `19.5`, `⟨30, 0⟩` is `30`). -/
structure JNum where
  m : Int
  e : Nat
deriving DecidableEq, Repr

/-- Render a `JNum` the way `JSON.stringify` renders the corresponding
JavaScript number literal: `⟨30, 0⟩ ↦ "30"`, `⟨195, 1⟩ ↦ "19.5"`,
`⟨-30, 0⟩ ↦ "-30"`. -/
def JNum.render (n : JNum) : String :=
  if n.e = 0 then toString n.m
  else
    let digits := toString n.m.natAbs
    let padded :=
      if digits.length ≤ n.e then
        String.mk (List.replicate (n.e + 1 - digits.length) '0') ++ digits
      else digits
    let sign := if n.m < 0 then "-" else ""
    sign ++ padded.take (padded.length - n.e) ++ "." ++
      padded.drop (padded.length - n.e)

/-- JSON values as produced by `JSON.parse` / consumed by
`JSON.stringify`.  Object fields carry their insertion order, which is
the order `JSON.stringify` emits them in. -/
inductive Json where
  | jstr : String → Json
  | jnum : JNum → Json
  | jobj : List (String × Json) → Json
  | jarr : List Json → Json

/-- String escaping of `JSON.stringify` for the characters the contract
can store (quote, backslash, newline; everything else verbatim). -/
def escapeChar (c : Char) : String :=
  if c = '"' then "\\\""
  else if c = '\\' then "\\\\"
  else if c = '\n' then "\\n"
  else String.mk [c]

/-- A JSON string literal: quoted, escaped. -/
def renderStr (s : String) : String :=
  "\"" ++ String.join (s.data.map escapeChar) ++ "\""

mutual

/-- `JSON.stringify` with no indentation: fields in insertion order,
`","` separators, no whitespace. -/
def Json.render : Json → String
  | .jstr s => renderStr s
  | .jnum n => n.render
  | .jobj fs => "\x7b" ++ Json.renderFields fs ++ "\x7d"
  | .jarr xs => "[" ++ Json.renderElems xs ++ "]"

def Json.renderFields : List (String × Json) → String
  | [] => ""
  | [(k, v)] => renderStr k ++ ":" ++ Json.render v
  | (k, v) :: rest =>
      renderStr k ++ ":" ++ Json.render v ++ "," ++ Json.renderFields rest

def Json.renderElems : List Json → String
  | [] => ""
  | [v] => Json.render v
  | v :: rest => Json.render v ++ "," ++ Json.renderElems rest

end

/-- Bytes held under a key of the world state: either the rendered bytes
of a JSON value (as written by `putState(id, Buffer.from(JSON.stringify(v)))`)
or an opaque string that is not well-formed JSON. -/
inductive Bytes where
  | json : Json → Bytes
  | raw : String → Bytes

/-- The byte string actually stored. -/
def Bytes.render : Bytes → String
  | .json v => Json.render v
  | .raw s => s

/-- `JSON.parse` on stored bytes: succeeds exactly on well-formed JSON
bytes and recovers the value. -/
def Bytes.parse : Bytes → Option Json
  | .json v => some v
  | .raw _ => none

/-- The world state visible to the contract: entries sorted by key in
strictly ascending order, so that `getStateByRange("", "")` is the list
itself. -/
abbrev Store := List (String × Bytes)

/-- Strict lexicographic order on character lists, the key order of the
world state's range scans (byte order coincides with it on the ASCII
keys the contract uses). -/
def charListLt : List Char → List Char → Bool
  | [], [] => false
  | [], _ :: _ => true
  | _ :: _, [] => false
  | a :: as, b :: bs =>
      if a < b then true else if a = b then charListLt as bs else false

/-- Lexicographic key order. -/
def keyLt (a b : String) : Bool :=
  charListLt a.data b.data

/-- Sortedness of the store, checked entry by adjacent entry. -/
def storeSortedB : Store → Bool
  | [] => true
  | [_] => true
  | a :: b :: rest => keyLt a.1 b.1 && storeSortedB (b :: rest)

/-- The sortedness invariant Fabric's world state guarantees. -/
def StoreOk (st : Store) : Prop :=
  storeSortedB st = true

instance : DecidablePred StoreOk := fun st =>
  inferInstanceAs (Decidable (storeSortedB st = true))

/-- `ctx.stub.getState(id)`: point lookup. -/
def getState : Store → String → Option Bytes
  | [], _ => none
  | (k', v) :: rest, k => if k = k' then some v else getState rest k

/-- `ctx.stub.putState(id, bytes)`: upsert, keeping keys sorted. -/
def putState : Store → String → Bytes → Store
  | [], k, v => [(k, v)]
  | (k', v') :: rest, k, v =>
    if keyLt k k' then (k, v) :: (k', v') :: rest
    else if k = k' then (k, v) :: rest
    else (k', v') :: putState rest k v

/-- `ctx.stub.deleteState(id)`: removes the key. -/
def deleteState : Store → String → Store
  | [], _ => []
  | (k', v) :: rest, k =>
    if k = k' then deleteState rest k else (k', v) :: deleteState rest k

/-- The failures the contract raises (`throw new Error(...)` in
`food.ts`), by kind. -/
inductive ContractError where
  | notFound (id : String)
  | alreadyExists (id : String)
  | badRecord (id : String)
deriving DecidableEq, Repr

/-- The `{lat, lng}` coordinate pair of a product. -/
structure Location where
  lat : JNum
  lng : JNum
deriving DecidableEq, Repr

/-- Modelled from the spec: the `Product` entity of
`src/chaincode/src/Models/product.ts` (the model file is not under
`src/`; spec §3 gives the field set and types — `name`, `quantity`,
`actor`, `imageUrl` strings, `price` a number, `location` a `{lat,lng}`
pair; the `actor` enumeration is a compile-time annotation with no
runtime check, so it is a plain string here). The `id` lives only as the
store key. -/
structure Product where
  name : String
  quantity : String
  price : JNum
  location : Location
  actor : String
  imageUrl : String
deriving DecidableEq, Repr

/-- `JSON.stringify` view of a location literal `{lat, lng}` (that
insertion order at every construction site in `food.ts`). -/
def locJson (l : Location) : Json :=
  .jobj [("lat", .jnum l.lat), ("lng", .jnum l.lng)]

/-- The object literal `CreateProduct` (and each `InitLedger` seed
entry) serializes: fields in the insertion order
`name, quantity, price, location, actor, imageUrl`. -/
def productJsonCreate (p : Product) : Json :=
  .jobj [("name", .jstr p.name), ("quantity", .jstr p.quantity),
    ("price", .jnum p.price), ("location", locJson p.location),
    ("actor", .jstr p.actor), ("imageUrl", .jstr p.imageUrl)]

/-- The object literal `UpdateProduct` serializes: fields in the
insertion order `quantity, price, name, location, actor, imageUrl`. -/
def productJsonUpdate (p : Product) : Json :=
  .jobj [("quantity", .jstr p.quantity), ("price", .jnum p.price),
    ("name", .jstr p.name), ("location", locJson p.location),
    ("actor", .jstr p.actor), ("imageUrl", .jstr p.imageUrl)]

/-- First field of the given name in a parsed object (`JSON.parse`
yields objects with distinct keys, so first = only). -/
def lookupField (fs : List (String × Json)) (k : String) : Option Json :=
  (fs.find? (fun p => p.1 == k)).map Prod.snd

def asStr : Json → Option String
  | .jstr s => some s
  | _ => none

def asNum : Json → Option JNum
  | .jnum n => some n
  | _ => none

/-- A parsed value that is exactly a well-formed `{lat, lng}` pair (the
shape every location written by the contract has). -/
def decodeLoc : Json → Option Location
  | .jobj [("lat", .jnum lat), ("lng", .jnum lng)] => some ⟨lat, lng⟩
  | _ => none

/-- Characterization of a well-formed product record: the parsed value
carries the six product fields with their expected shapes.  Used in
hypotheses and conclusions to say "this stored value is the record
`p`"; the operations themselves never shape-check (see
`TransferProduct`). -/
def decodeProduct : Json → Option Product
  | .jobj fs => do
      let name ← lookupField fs "name" >>= asStr
      let quantity ← lookupField fs "quantity" >>= asStr
      let price ← lookupField fs "price" >>= asNum
      let location ← lookupField fs "location" >>= decodeLoc
      let actor ← lookupField fs "actor" >>= asStr
      let imageUrl ← lookupField fs "imageUrl" >>= asStr
      pure ⟨name, quantity, price, location, actor, imageUrl⟩
  | _ => none

/-- `ProductExists`: `getState(id)` then
`assetJSON && assetJSON.length > 0` (a missing key yields an empty
buffer in Fabric, so both absence and zero-length bytes give `false`). -/
def ProductExists (st : Store) (id : String) : Bool :=
  match getState st id with
  | none => false
  | some b => decide (0 < b.render.length)

/-- The lookup-and-length-check both `GetProduct` and (through it)
`TransferProduct` perform, returning the stored bytes; `GetProduct`
itself returns their string rendering. -/
def getProductB (st : Store) (id : String) : Except ContractError Bytes :=
  match getState st id with
  | none => .error (.notFound id)
  | some b =>
      if b.render.length = 0 then .error (.notFound id) else .ok b

/-- `GetProduct`: throws `The product ${id} does not exist` when the
bytes are absent or empty; otherwise returns the stored bytes as text. -/
def GetProduct (st : Store) (id : String) : Except ContractError String :=
  (getProductB st id).map Bytes.render

/-- `CreateProduct`: `AlreadyExists` if `ProductExists`, else stores the
literal `{name, quantity, price, location, actor, imageUrl}` via plain
`JSON.stringify` and returns the confirmation text. -/
def CreateProduct (st : Store) (name id quantity : String) (price : JNum)
    (location : Location) (actor imageUrl : String) :
    Except ContractError (String × Store) :=
  if ProductExists st id then .error (.alreadyExists id)
  else .ok ("Product with " ++ id ++ " created successfully",
    putState st id (.json (productJsonCreate
      ⟨name, quantity, price, location, actor, imageUrl⟩)))

/-- One property of the `JSON.stringify` output of `UpdateProduct`'s
object literal: a field holding `undefined` (`none`) is dropped, any
defined value is emitted verbatim. -/
def optField (k : String) : Option Json → List (String × Json)
  | some j => [(k, j)]
  | none => []

/-- `UpdateProduct` as it runs (TypeScript types are erased): `NotFound`
unless `ProductExists`, else overwrites the key with the literal
`{quantity, price, name, location, actor, imageUrl}` serialized by
plain `JSON.stringify` — fields holding `undefined` are dropped, the
rest emitted in insertion order (the imported `sort-keys-recursive` /
`json-stringify-deterministic` are never called). -/
def UpdateProductJs (st : Store) (id : String)
    (quantity price name location actor imageUrl : Option Json) :
    Except ContractError Store :=
  if ProductExists st id then
    .ok (putState st id (.json (.jobj
      (optField "quantity" quantity ++ optField "price" price ++
        optField "name" name ++ optField "location" location ++
        optField "actor" actor ++ optField "imageUrl" imageUrl))))
  else .error (.notFound id)

/-- `UpdateProduct` on the transaction surface, where every argument is
a defined value of the declared type; its write is exactly
`productJsonUpdate`. -/
def UpdateProduct (st : Store) (id quantity : String) (price : JNum)
    (name : String) (location : Location) (actor imageUrl : String) :
    Except ContractError Store :=
  UpdateProductJs st id (some (.jstr quantity)) (some (.jnum price))
    (some (.jstr name)) (some (locJson location)) (some (.jstr actor))
    (some (.jstr imageUrl))

/-- `DeleteProduct`: `NotFound` unless `ProductExists`, else deletes the
key. -/
def DeleteProduct (st : Store) (id : String) : Except ContractError Store :=
  if ProductExists st id then .ok (deleteState st id)
  else .error (.notFound id)

/-- `TransferProduct`: `GetProduct` (propagating its `NotFound`), then
`JSON.parse` of the returned text — `badRecord` models only the
failures the runtime raises there: the `SyntaxError` of `JSON.parse` on
non-JSON bytes, and the strict-mode `TypeError` of
`asset.actor = newActor` when the parsed value is a string or number
primitive (class bodies are strict mode).  On a parsed object the six
properties are read as they are — a missing property is `undefined` and
is dropped by `JSON.stringify` in the write; no shape check happens —
and the record is rewritten through `UpdateProduct` with the new actor.
On a parsed array every named property is `undefined`.  Returns the old
`actor` property, `undefined` (`none`) when absent. -/
def TransferProduct (st : Store) (id newActor : String) :
    Except ContractError (Option Json × Store) :=
  match getProductB st id with
  | .error e => .error e
  | .ok b =>
    match b.parse with
    | none => .error (.badRecord id)
    | some (.jstr _) => .error (.badRecord id)
    | some (.jnum _) => .error (.badRecord id)
    | some (.jobj fs) =>
      match UpdateProductJs st id (lookupField fs "quantity")
          (lookupField fs "price") (lookupField fs "name")
          (lookupField fs "location") (some (.jstr newActor))
          (lookupField fs "imageUrl") with
      | .error e => .error e
      | .ok st2 => .ok (lookupField fs "actor", st2)
    | some (.jarr _) =>
      match UpdateProductJs st id none none none none
          (some (.jstr newActor)) none with
      | .error e => .error e
      | .ok st2 => .ok (none, st2)

/-- A scanned entry as `GetAllProducts` pushes it: the `JSON.parse` of
the bytes, or on parse failure the raw string itself. -/
def entryJson (b : Bytes) : Json :=
  match b.parse with
  | some v => v
  | none => .jstr b.render

/-- `GetAllProducts`: full range scan in key order, parse each value
tolerating malformed bytes, `JSON.stringify` the collected array. -/
def GetAllProducts (st : Store) : String :=
  Json.render (.jarr (st.map fun e => entryJson e.2))

end Food

namespace Food

/-- `imageUrl` of the first `InitLedger` seed product. -/
def url1 : String :=
  "https://www.google.com/imgres?imgurl=https%3A%2F%2Fwww.shutterstock.com%2Fimage-photo%2Fripe-apples-display-sale-on-260nw-1822577225.jpg&tbnid=_80h5A5M7JA99M&vet=12ahUKEwjklJH-6sf-AhUZ5HMBHcg9CRAQMygLegUIARCAAg..i&imgrefurl=https%3A%2F%2Fwww.shutterstock.com%2Fsearch%2Fapple-carton&docid=iGQDBsh5yQqLEM&w=426&h=280&q=apple%20in%20carton&ved=2ahUKEwjklJH-6sf-AhUZ5HMBHcg9CRAQMygLegUIARCAAg"

/-- `imageUrl` shared by the remaining seven `InitLedger` seed products. -/
def url2 : String :=
  "https://www.google.com/imgres?imgurl=https%3A%2F%2F5.imimg.com%2Fdata5%2FCJ%2FGC%2FWB%2FSELLER-1177031%2Fwooden-beehive-box-500x500.jpg&tbnid=fQ3GXsWFhXD6pM&vet=12ahUKEwjBi-rQ68f-AhUL-nMBHVIfAhIQMygKegUIARCLAg..i&imgrefurl=https%3A%2F%2Fwww.indiamart.com%2Fproddetail%2Fwooden-beehive-box-with-honey-bees-20959147173.html&docid=FahB3lcm3XrfKM&w=500&h=500&q=honey%20in%20a%20box%20images&ved=2ahUKEwjBi-rQ68f-AhUL-nMBHVIfAhIQMygKegUIARCLAg"

/-- The eight hard-coded seed products of `InitLedger`, in array order
(numbers encoded as the decimals JavaScript renders: `19.5 = ⟨195,1⟩`,
`72.0` renders `"72"` so it is `⟨72,0⟩`). -/
def seedProducts : List Product :=
  [⟨"Apple", "100 cartons", ⟨30, 0⟩, ⟨⟨195, 1⟩, ⟨72, 0⟩⟩, "CONSUMER", url1⟩,
   ⟨"Honey", "500 jars", ⟨350, 0⟩, ⟨⟨20, 0⟩, ⟨-30, 0⟩⟩, "CONSUMER", url2⟩,
   ⟨"Jam", "1000 bottles", ⟨60, 0⟩, ⟨⟨50, 0⟩, ⟨101, 1⟩⟩, "CONSUMER", url2⟩,
   ⟨"Mango", "20 boxes", ⟨450, 0⟩, ⟨⟨2101, 2⟩, ⟨72, 0⟩⟩, "PRODUCER", url2⟩,
   ⟨"Grapes", "25kgs", ⟨125, 0⟩, ⟨⟨2544, 2⟩, ⟨91, 0⟩⟩, "RETAILER", url2⟩,
   ⟨"Onion", "1000 kgs", ⟨25, 0⟩, ⟨⟨1245, 2⟩, ⟨27, 0⟩⟩, "CONSUMER", url2⟩,
   ⟨"Oranges", "10kgs", ⟨100, 0⟩, ⟨⟨865, 1⟩, ⟨3101, 2⟩⟩, "CONSUMER", url2⟩,
   ⟨"Cheese", "25 boxes", ⟨183, 0⟩, ⟨⟨5665, 2⟩, ⟨4512, 2⟩⟩, "CONSUMER", url2⟩]

/-- `InitLedger`: the `for` loop over the seed array, writing the plain
`JSON.stringify` of seed `i` (same field insertion order as
`CreateProduct`) under key `` `${i+1}` `` unconditionally — no existence
check.  The loop is unrolled with its eight evaluated keys. -/
def InitLedger (st : Store) : Store :=
  putState (putState (putState (putState (putState (putState (putState
    (putState st
      "1" (.json (productJsonCreate (seedProducts.get ⟨0, by decide⟩))))
      "2" (.json (productJsonCreate (seedProducts.get ⟨1, by decide⟩))))
      "3" (.json (productJsonCreate (seedProducts.get ⟨2, by decide⟩))))
      "4" (.json (productJsonCreate (seedProducts.get ⟨3, by decide⟩))))
      "5" (.json (productJsonCreate (seedProducts.get ⟨4, by decide⟩))))
      "6" (.json (productJsonCreate (seedProducts.get ⟨5, by decide⟩))))
      "7" (.json (productJsonCreate (seedProducts.get ⟨6, by decide⟩))))
    "8" (.json (productJsonCreate (seedProducts.get ⟨7, by decide⟩)))

/-- Sorted insert by field name (lexicographic order on strings). -/
def insertField (p : String × Json) : List (String × Json) → List (String × Json)
  | [] => [p]
  | q :: rest =>
      if keyLt q.1 p.1 then q :: insertField p rest else p :: q :: rest

mutual

/-- Modelled from the spec: the Canonical Serializer (§4.2) the contract
imports as `sort-keys-recursive` + `json-stringify-deterministic` (npm
dependencies, not under `src/`): recursively sort mapping keys at every
nesting level before encoding.  The canonical bytes of `v` are
`Json.render (Json.sortKeysRec v)`. -/
def Json.sortKeysRec : Json → Json
  | .jstr s => .jstr s
  | .jnum n => .jnum n
  | .jobj fs => .jobj (Json.sortKeysRecFields fs)
  | .jarr xs => .jarr (Json.sortKeysRecElems xs)

/-- Insertion sort by field name fused with the recursive descent: the
result is the field list with every value canonicalized, sorted by
name. -/
def Json.sortKeysRecFields : List (String × Json) → List (String × Json)
  | [] => []
  | (k, v) :: rest =>
      insertField (k, Json.sortKeysRec v) (Json.sortKeysRecFields rest)

def Json.sortKeysRecElems : List Json → List Json
  | [] => []
  | v :: rest => Json.sortKeysRec v :: Json.sortKeysRecElems rest

end

theorem getState_putState_self (st : Store) (k : String) (v : Bytes) :
    getState (putState st k v) k = some v := by
  induction st with
  | nil => simp [putState, getState]
  | cons hd tl ih =>
    obtain ⟨k', v'⟩ := hd
    by_cases h1 : keyLt k k' = true
    · simp [putState, h1, getState]
    · by_cases h2 : k = k'
      · subst h2; simp [putState, h1, getState]
      · simp [putState, h1, h2, getState, ih]

theorem getState_putState_ne (st : Store) (k k' : String) (v : Bytes)
    (h : k' ≠ k) : getState (putState st k v) k' = getState st k' := by
  induction st with
  | nil => simp [putState, getState, h]
  | cons hd tl ih =>
    obtain ⟨k₀, v₀⟩ := hd
    by_cases h1 : keyLt k k₀ = true
    · simp [putState, h1, getState, h]
    · by_cases h2 : k = k₀
      · subst h2; simp [putState, h1, getState, h]
      · by_cases h3 : k' = k₀
        · simp [putState, h1, h2, getState, h3]
        · simp [putState, h1, h2, getState, h3, ih]

theorem getState_deleteState_self (st : Store) (k : String) :
    getState (deleteState st k) k = none := by
  induction st with
  | nil => simp [deleteState, getState]
  | cons hd tl ih =>
    obtain ⟨k₀, v₀⟩ := hd
    by_cases h : k = k₀
    · subst h; simp [deleteState, ih]
    · simp [deleteState, h, getState, ih]

theorem getState_isSome_iff_mem (st : Store) (k : String) :
    (getState st k).isSome ↔ k ∈ st.map Prod.fst := by
  induction st with
  | nil => simp [getState]
  | cons hd tl ih =>
    obtain ⟨k₀, v₀⟩ := hd
    by_cases h : k = k₀
    · simp [getState, h]
    · simp [getState, h, ih]

end Food

namespace Food

theorem render_jobj_length_pos (fs : List (String × Json)) :
    0 < (Json.render (.jobj fs)).length := by
  simp [Json.render, String.length_append]
  exact Or.inl (Or.inl (by decide))

theorem productExists_of_getState_jobj (st : Store) (id : String)
    (fs : List (String × Json))
    (h : getState st id = some (.json (.jobj fs))) :
    ProductExists st id = true := by
  simp [ProductExists, h, Bytes.render]
  exact render_jobj_length_pos fs

theorem getProductB_of_getState_jobj (st : Store) (id : String)
    (fs : List (String × Json))
    (h : getState st id = some (.json (.jobj fs))) :
    getProductB st id = .ok (.json (.jobj fs)) := by
  have hp := render_jobj_length_pos fs
  simp [getProductB, h, Bytes.render]
  omega

theorem decodeProduct_productJsonCreate (p : Product) :
    decodeProduct (productJsonCreate p) = some p := rfl

theorem decodeProduct_productJsonUpdate (p : Product) :
    decodeProduct (productJsonUpdate p) = some p := rfl

end Food

namespace Food

theorem getProductB_notFound (st : Store) (id : String)
    (h : ProductExists st id = false) :
    getProductB st id = .error (.notFound id) := by
  unfold ProductExists at h
  unfold getProductB
  cases hg : getState st id with
  | none => rfl
  | some b =>
    rw [hg] at h
    simp at h
    simp [h]

theorem productExists_putState_create (st : Store) (id : String) (p : Product) :
    ProductExists (putState st id (.json (productJsonCreate p))) id = true :=
  productExists_of_getState_jobj _ _ _ (getState_putState_self st id _)

theorem productExists_putState_update (st : Store) (id : String) (p : Product) :
    ProductExists (putState st id (.json (productJsonUpdate p))) id = true :=
  productExists_of_getState_jobj _ _ _ (getState_putState_self st id _)

/-- C2: `UpdateProduct`, `DeleteProduct` and `TransferProduct` on an id
with no current record each fail with `NotFound`.  In this state-passing
embedding a failing operation returns only the error and no store, so
the pre-state is untouched: the existence check precedes any write and
failure never causes a partial write. -/
theorem notFound_on_missing_id (st : Store)
    (id quantity name actor imageUrl newActor : String)
    (price : JNum) (location : Location)
    (h : ProductExists st id = false) :
    UpdateProduct st id quantity price name location actor imageUrl =
      .error (.notFound id) ∧
    DeleteProduct st id = .error (.notFound id) ∧
    TransferProduct st id newActor = .error (.notFound id) := by
  have hgb := getProductB_notFound st id h
  refine ⟨by simp [UpdateProduct, UpdateProductJs, h],
    by simp [DeleteProduct, h], by simp [TransferProduct, hgb]⟩

/-- C2 witness: the three operations on the empty store at id `"x"`. -/
theorem notFound_on_missing_id_witness :
    ProductExists ([] : Store) "x" = false ∧
    (UpdateProduct [] "x" "q" ⟨1, 0⟩ "n" ⟨⟨0, 0⟩, ⟨0, 0⟩⟩ "a" "u" =
        .error (.notFound "x") ∧
      DeleteProduct [] "x" = .error (.notFound "x") ∧
      TransferProduct [] "x" "RETAILER" = .error (.notFound "x")) :=
  ⟨rfl, notFound_on_missing_id [] "x" "q" "n" "a" "u" "RETAILER"
    ⟨1, 0⟩ ⟨⟨0, 0⟩, ⟨0, 0⟩⟩ rfl⟩

/-- C4: creating a fresh id succeeds and stores the record; afterwards
`ProductExists` is true, a second `CreateProduct` on the same id fails
with `AlreadyExists`, and the first record is still the stored value. -/
theorem createProduct_then_exists (st : Store)
    (id name quantity actor imageUrl name2 quantity2 actor2 imageUrl2 : String)
    (price price2 : JNum) (location location2 : Location)
    (h : ProductExists st id = false) :
    CreateProduct st name id quantity price location actor imageUrl =
      .ok ("Product with " ++ id ++ " created successfully",
        putState st id (.json (productJsonCreate
          ⟨name, quantity, price, location, actor, imageUrl⟩))) ∧
    ProductExists (putState st id (.json (productJsonCreate
      ⟨name, quantity, price, location, actor, imageUrl⟩))) id = true ∧
    CreateProduct (putState st id (.json (productJsonCreate
        ⟨name, quantity, price, location, actor, imageUrl⟩)))
      name2 id quantity2 price2 location2 actor2 imageUrl2 =
      .error (.alreadyExists id) ∧
    getState (putState st id (.json (productJsonCreate
      ⟨name, quantity, price, location, actor, imageUrl⟩))) id =
      some (.json (productJsonCreate
        ⟨name, quantity, price, location, actor, imageUrl⟩)) :=
  ⟨by simp [CreateProduct, h],
    productExists_putState_create st id _,
    by simp [CreateProduct, productExists_putState_create],
    getState_putState_self st id _⟩

/-- C4 witness: create id `"1"` on the empty store, then create it
again. -/
theorem createProduct_then_exists_witness :
    ProductExists ([] : Store) "1" = false ∧
    (CreateProduct [] "Pear" "1" "5" ⟨7, 0⟩ ⟨⟨1, 0⟩, ⟨2, 0⟩⟩ "PRODUCER" "u" =
        .ok ("Product with " ++ "1" ++ " created successfully",
          putState [] "1" (.json (productJsonCreate
            ⟨"Pear", "5", ⟨7, 0⟩, ⟨⟨1, 0⟩, ⟨2, 0⟩⟩, "PRODUCER", "u"⟩))) ∧
      ProductExists (putState [] "1" (.json (productJsonCreate
        ⟨"Pear", "5", ⟨7, 0⟩, ⟨⟨1, 0⟩, ⟨2, 0⟩⟩, "PRODUCER", "u"⟩))) "1" = true ∧
      CreateProduct (putState [] "1" (.json (productJsonCreate
          ⟨"Pear", "5", ⟨7, 0⟩, ⟨⟨1, 0⟩, ⟨2, 0⟩⟩, "PRODUCER", "u"⟩)))
        "X" "1" "Y" ⟨8, 0⟩ ⟨⟨3, 0⟩, ⟨4, 0⟩⟩ "A" "B" =
        .error (.alreadyExists "1") ∧
      getState (putState [] "1" (.json (productJsonCreate
        ⟨"Pear", "5", ⟨7, 0⟩, ⟨⟨1, 0⟩, ⟨2, 0⟩⟩, "PRODUCER", "u"⟩))) "1" =
        some (.json (productJsonCreate
          ⟨"Pear", "5", ⟨7, 0⟩, ⟨⟨1, 0⟩, ⟨2, 0⟩⟩, "PRODUCER", "u"⟩))) :=
  ⟨rfl, createProduct_then_exists [] "1" "Pear" "5" "PRODUCER" "u"
    "X" "Y" "A" "B" ⟨7, 0⟩ ⟨8, 0⟩ ⟨⟨1, 0⟩, ⟨2, 0⟩⟩ ⟨⟨3, 0⟩, ⟨4, 0⟩⟩ rfl⟩

/-- C6: on an id with no stored bytes — never created, or looked up
after its deletion — `ProductExists` is false and `GetProduct` fails
with `NotFound`. -/
theorem missing_id_queries (st : Store) (id : String)
    (h : getState st id = none) :
    ProductExists st id = false ∧
    GetProduct st id = .error (.notFound id) ∧
    ProductExists (deleteState st id) id = false ∧
    GetProduct (deleteState st id) id = .error (.notFound id) := by
  have hd := getState_deleteState_self st id
  exact ⟨by simp [ProductExists, h],
    by simp [GetProduct, getProductB, h, Except.map],
    by simp [ProductExists, hd],
    by simp [GetProduct, getProductB, hd, Except.map]⟩

/-- C6 witness: id `"b"` on a store holding only key `"a"`, and the
same id after deleting it. -/
theorem missing_id_queries_witness :
    getState [("a", Bytes.raw "z")] "b" = none ∧
    (ProductExists [("a", Bytes.raw "z")] "b" = false ∧
      GetProduct [("a", Bytes.raw "z")] "b" = .error (.notFound "b") ∧
      ProductExists (deleteState [("a", Bytes.raw "z")] "b") "b" = false ∧
      GetProduct (deleteState [("a", Bytes.raw "z")] "b") "b" =
        .error (.notFound "b")) :=
  ⟨rfl, missing_id_queries [("a", Bytes.raw "z")] "b" rfl⟩

end Food

namespace Food

theorem eq_jstr_of_asStr {j : Json} {s : String} (h : asStr j = some s) :
    j = .jstr s := by
  cases j with
  | jstr s2 => simp [asStr] at h; rw [h]
  | jnum n => simp [asStr] at h
  | jobj fs => simp [asStr] at h
  | jarr xs => simp [asStr] at h

theorem eq_jnum_of_asNum {j : Json} {n : JNum} (h : asNum j = some n) :
    j = .jnum n := by
  cases j with
  | jstr s => simp [asNum] at h
  | jnum n2 => simp [asNum] at h; rw [h]
  | jobj fs => simp [asNum] at h
  | jarr xs => simp [asNum] at h

theorem eq_locJson_of_decodeLoc {j : Json} {l : Location}
    (h : decodeLoc j = some l) : j = locJson l := by
  unfold decodeLoc at h
  split at h
  · next lat lng =>
      injection h with h2
      rw [← h2]
      rfl
  · next => simp at h

/-- What a well-formed record pins down: each of the six properties the
operations read is present with its expected shape. -/
theorem decodeProduct_lookups (fs : List (String × Json)) (p : Product)
    (h : decodeProduct (.jobj fs) = some p) :
    lookupField fs "name" = some (.jstr p.name) ∧
    lookupField fs "quantity" = some (.jstr p.quantity) ∧
    lookupField fs "price" = some (.jnum p.price) ∧
    lookupField fs "location" = some (locJson p.location) ∧
    lookupField fs "actor" = some (.jstr p.actor) ∧
    lookupField fs "imageUrl" = some (.jstr p.imageUrl) := by
  unfold decodeProduct at h
  simp only [bind, Option.bind_eq_some, Option.some.injEq, pure] at h
  obtain ⟨n1, ⟨j1, hl1, ha1⟩, q1, ⟨j2, hl2, ha2⟩, pr1, ⟨j3, hl3, ha3⟩,
    lo1, ⟨j4, hl4, ha4⟩, a1, ⟨j5, hl5, ha5⟩, i1, ⟨j6, hl6, ha6⟩, hp⟩ := h
  rw [← hp]
  exact ⟨hl1.trans (congrArg some (eq_jstr_of_asStr ha1)),
    hl2.trans (congrArg some (eq_jstr_of_asStr ha2)),
    hl3.trans (congrArg some (eq_jnum_of_asNum ha3)),
    hl4.trans (congrArg some (eq_locJson_of_decodeLoc ha4)),
    hl5.trans (congrArg some (eq_jstr_of_asStr ha5)),
    hl6.trans (congrArg some (eq_jstr_of_asStr ha6))⟩

/-- On a well-formed stored record, `TransferProduct` returns the old
actor and rewrites the record through `UpdateProduct` with the new
actor. -/
theorem transferProduct_eq_of_decode (st : Store) (id newActor : String)
    (fs : List (String × Json)) (p : Product)
    (hget : getState st id = some (.json (.jobj fs)))
    (hdec : decodeProduct (.jobj fs) = some p) :
    TransferProduct st id newActor =
      .ok (some (.jstr p.actor), putState st id (.json (productJsonUpdate
        { p with actor := newActor }))) := by
  obtain ⟨hn, hq, hpr, hl, ha, hi⟩ := decodeProduct_lookups fs p hdec
  have hB := getProductB_of_getState_jobj st id fs hget
  have hex := productExists_of_getState_jobj st id fs hget
  unfold TransferProduct
  rw [hB]
  dsimp only [Bytes.parse]
  rw [hq, hpr, hn, hl, ha, hi]
  simp [UpdateProductJs, hex, optField, productJsonUpdate, locJson]

/-- C3: transferring an existing, well-formed record returns the actor
stored immediately before the call; afterwards `GetProduct` returns the
record rewritten with the new actor, and decoding it shows `name`,
`quantity`, `price`, `location` and `imageUrl` unchanged. -/
theorem transferProduct_correct (st : Store) (id newActor : String)
    (fs : List (String × Json)) (p : Product)
    (hget : getState st id = some (.json (.jobj fs)))
    (hdec : decodeProduct (.jobj fs) = some p) :
    TransferProduct st id newActor =
      .ok (some (.jstr p.actor), putState st id (.json (productJsonUpdate
        { p with actor := newActor }))) ∧
    GetProduct
        (putState st id (.json (productJsonUpdate { p with actor := newActor })))
        id =
      .ok (Json.render (productJsonUpdate { p with actor := newActor })) ∧
    decodeProduct (productJsonUpdate { p with actor := newActor }) =
      some { p with actor := newActor } := by
  refine ⟨transferProduct_eq_of_decode st id newActor fs p hget hdec, ?_,
    decodeProduct_productJsonUpdate _⟩
  have h2 := getState_putState_self st id
    (Bytes.json (productJsonUpdate { p with actor := newActor }))
  have hB2 := getProductB_of_getState_jobj _ id _ h2
  unfold GetProduct
  rw [hB2]
  rfl

/-- A well-formed demo record used by concrete instantiations. -/
def demoP : Product :=
  ⟨"Milk", "2 litres", ⟨40, 0⟩, ⟨⟨5, 0⟩, ⟨6, 0⟩⟩, "PRODUCER", "img"⟩

/-- The parsed field list of `demoP` as `CreateProduct` stores it. -/
def demoFields : List (String × Json) :=
  [("name", .jstr "Milk"), ("quantity", .jstr "2 litres"),
   ("price", .jnum ⟨40, 0⟩),
   ("location", .jobj [("lat", .jnum ⟨5, 0⟩), ("lng", .jnum ⟨6, 0⟩)]),
   ("actor", .jstr "PRODUCER"), ("imageUrl", .jstr "img")]

/-- A one-record demo store holding `demoP` under key `"m1"`. -/
def demoStoreC3 : Store := [("m1", Bytes.json (productJsonCreate demoP))]

/-- C3 witness: transfer `"m1"` from `"PRODUCER"` to `"RETAILER"`. -/
theorem transferProduct_correct_witness :
    getState demoStoreC3 "m1" = some (.json (.jobj demoFields)) ∧
    decodeProduct (.jobj demoFields) = some demoP ∧
    (TransferProduct demoStoreC3 "m1" "RETAILER" =
        .ok (some (.jstr demoP.actor), putState demoStoreC3 "m1"
          (.json (productJsonUpdate { demoP with actor := "RETAILER" }))) ∧
      GetProduct
          (putState demoStoreC3 "m1"
            (.json (productJsonUpdate { demoP with actor := "RETAILER" })))
          "m1" =
        .ok (Json.render (productJsonUpdate { demoP with actor := "RETAILER" })) ∧
      decodeProduct (productJsonUpdate { demoP with actor := "RETAILER" }) =
        some { demoP with actor := "RETAILER" }) :=
  ⟨rfl, rfl, transferProduct_correct demoStoreC3 "m1" "RETAILER" demoFields demoP
    rfl rfl⟩

theorem charListLt_trans (a : List Char) : ∀ b c,
    charListLt a b = true → charListLt b c = true → charListLt a c = true := by
  induction a with
  | nil =>
    intro b c hab hbc
    cases b with
    | nil => exact absurd hab (by simp [charListLt])
    | cons y ys =>
      cases c with
      | nil => exact absurd hbc (by simp [charListLt])
      | cons z zs => simp [charListLt]
  | cons x xs ih =>
    intro b c hab hbc
    cases b with
    | nil => exact absurd hab (by simp [charListLt])
    | cons y ys =>
      cases c with
      | nil => exact absurd hbc (by simp [charListLt])
      | cons z zs =>
        unfold charListLt at hab hbc ⊢
        by_cases h1 : x < y
        · by_cases h2 : y < z
          · have h3 : x < z := lt_trans h1 h2
            simp [h3]
          · by_cases h3 : y = z
            · subst h3; simp [h1]
            · simp [h2, h3] at hbc
        · by_cases h4 : x = y
          · subst h4
            simp [h1] at hab
            by_cases h2 : x < z
            · simp [h2]
            · by_cases h3 : x = z
              · subst h3
                simp [h2] at hbc ⊢
                exact ih ys zs hab hbc
              · simp [h2, h3] at hbc
          · simp [h1, h4] at hab

theorem keyLt_trans (a b c : String) (hab : keyLt a b = true)
    (hbc : keyLt b c = true) : keyLt a c = true :=
  charListLt_trans a.data b.data c.data hab hbc

theorem storeSortedB_head (x : String × Bytes) (l : Store)
    (h : storeSortedB (x :: l) = true) :
    storeSortedB l = true ∧ ∀ y ∈ l, keyLt x.1 y.1 = true := by
  induction l generalizing x with
  | nil => simp [storeSortedB]
  | cons b rest ih =>
    rw [storeSortedB] at h
    simp only [Bool.and_eq_true] at h
    obtain ⟨h1, h2⟩ := h
    have hrest := ih b h2
    refine ⟨h2, ?_⟩
    intro y hy
    rcases List.mem_cons.mp hy with hEq | hMem
    · subst hEq; exact h1
    · exact keyLt_trans _ _ _ h1 (hrest.2 y hMem)

theorem storeOk_pairwise (st : Store) (h : StoreOk st) :
    List.Pairwise (fun a b => keyLt a b = true) (st.map Prod.fst) := by
  induction st with
  | nil => simp
  | cons x l ih =>
    obtain ⟨hl, hhead⟩ := storeSortedB_head x l h
    simp only [List.map_cons, List.pairwise_cons]
    refine ⟨fun k hk => ?_, ih hl⟩
    obtain ⟨y, hy, rfl⟩ := List.mem_map.mp hk
    exact hhead y hy

/-- C5: `GetAllProducts` renders the array of all live entries — one
element per stored key, the keys pairwise strictly ascending, an entry
present exactly when `getState` finds the key — and yields `"[]"` on a
store with no keys. -/
theorem getAllProducts_correct (st : Store) (h : StoreOk st) :
    GetAllProducts st = Json.render (.jarr (st.map fun e => entryJson e.2)) ∧
    (st.map fun e => entryJson e.2).length = (st.map Prod.fst).length ∧
    List.Pairwise (fun a b => keyLt a b = true) (st.map Prod.fst) ∧
    (∀ k, (getState st k).isSome ↔ k ∈ st.map Prod.fst) ∧
    GetAllProducts ([] : Store) = "[]" :=
  ⟨rfl, by simp, storeOk_pairwise st h,
    fun k => getState_isSome_iff_mem st k, rfl⟩

/-- A two-key demo store: one well-formed record, one malformed blob. -/
def demoStoreC5 : Store :=
  [("a", Bytes.json (productJsonCreate demoP)), ("b", Bytes.raw "oops")]

/-- C5 witness: the scan of `demoStoreC5`. -/
theorem getAllProducts_correct_witness :
    StoreOk demoStoreC5 ∧
    GetAllProducts demoStoreC5 =
      Json.render (.jarr [productJsonCreate demoP, .jstr "oops"]) :=
  ⟨by decide, (getAllProducts_correct demoStoreC5 (by decide)).1⟩

/-- C7: a store entry whose bytes are not well-formed JSON does not
abort the scan: `GetAllProducts` still returns, the malformed entry
appears as the raw string, and every well-formed entry still appears
decoded. -/
theorem getAllProducts_tolerates_malformed (pre post : Store) (k s : String)
    (h : StoreOk (pre ++ (k, Bytes.raw s) :: post)) :
    GetAllProducts (pre ++ (k, Bytes.raw s) :: post) =
      Json.render (.jarr ((pre.map fun e => entryJson e.2) ++
        Json.jstr s :: (post.map fun e => entryJson e.2))) ∧
    ∀ k2 v, (k2, Bytes.json v) ∈ pre ++ (k, Bytes.raw s) :: post →
      v ∈ (pre ++ (k, Bytes.raw s) :: post).map fun e => entryJson e.2 := by
  constructor
  · simp [GetAllProducts, entryJson, Bytes.parse, Bytes.render]
  · intro k2 v hm
    exact List.mem_map_of_mem (fun e => entryJson e.2) hm

/-- C7 witness: a malformed entry between no other keys and one number
entry. -/
theorem getAllProducts_tolerates_malformed_witness :
    StoreOk [("b", Bytes.raw "not json"), ("c", Bytes.json (.jnum ⟨5, 0⟩))] ∧
    GetAllProducts
        [("b", Bytes.raw "not json"), ("c", Bytes.json (.jnum ⟨5, 0⟩))] =
      Json.render (.jarr [.jstr "not json", .jnum ⟨5, 0⟩]) :=
  ⟨by decide, (getAllProducts_tolerates_malformed []
    [("c", Bytes.json (.jnum ⟨5, 0⟩))] "b" "not json" (by decide)).1⟩

end Food

namespace Food

/-- C8: `InitLedger` is a total function on stores (it can never fail),
writes its eight seed records under keys `"1"`–`"8"` with no existence
check — overwriting whatever any prior state held — and afterwards the
record under `"1"` is the Apple seed with price 30. -/
theorem initLedger_seeds (st : Store) :
    getState (InitLedger st) "1" = some (.json (productJsonCreate
      ⟨"Apple", "100 cartons", ⟨30, 0⟩, ⟨⟨195, 1⟩, ⟨72, 0⟩⟩, "CONSUMER", url1⟩)) ∧
    GetProduct (InitLedger st) "1" = .ok (Json.render (productJsonCreate
      ⟨"Apple", "100 cartons", ⟨30, 0⟩, ⟨⟨195, 1⟩, ⟨72, 0⟩⟩, "CONSUMER", url1⟩)) ∧
    decodeProduct (productJsonCreate
        ⟨"Apple", "100 cartons", ⟨30, 0⟩, ⟨⟨195, 1⟩, ⟨72, 0⟩⟩, "CONSUMER", url1⟩) =
      some ⟨"Apple", "100 cartons", ⟨30, 0⟩, ⟨⟨195, 1⟩, ⟨72, 0⟩⟩, "CONSUMER", url1⟩ ∧
    getState (InitLedger st) "2" =
      some (.json (productJsonCreate (seedProducts.get ⟨1, by decide⟩))) ∧
    getState (InitLedger st) "3" =
      some (.json (productJsonCreate (seedProducts.get ⟨2, by decide⟩))) ∧
    getState (InitLedger st) "4" =
      some (.json (productJsonCreate (seedProducts.get ⟨3, by decide⟩))) ∧
    getState (InitLedger st) "5" =
      some (.json (productJsonCreate (seedProducts.get ⟨4, by decide⟩))) ∧
    getState (InitLedger st) "6" =
      some (.json (productJsonCreate (seedProducts.get ⟨5, by decide⟩))) ∧
    getState (InitLedger st) "7" =
      some (.json (productJsonCreate (seedProducts.get ⟨6, by decide⟩))) ∧
    getState (InitLedger st) "8" =
      some (.json (productJsonCreate (seedProducts.get ⟨7, by decide⟩))) := by
  have g1 : getState (InitLedger st) "1" = some (.json (productJsonCreate
      ⟨"Apple", "100 cartons", ⟨30, 0⟩, ⟨⟨195, 1⟩, ⟨72, 0⟩⟩, "CONSUMER", url1⟩)) := by
    unfold InitLedger
    rw [getState_putState_ne _ "8" "1" _ (by decide),
      getState_putState_ne _ "7" "1" _ (by decide),
      getState_putState_ne _ "6" "1" _ (by decide),
      getState_putState_ne _ "5" "1" _ (by decide),
      getState_putState_ne _ "4" "1" _ (by decide),
      getState_putState_ne _ "3" "1" _ (by decide),
      getState_putState_ne _ "2" "1" _ (by decide)]
    exact getState_putState_self _ _ _
  refine ⟨g1, ?_, decodeProduct_productJsonCreate _, ?_, ?_, ?_, ?_, ?_, ?_, ?_⟩
  · have hB := getProductB_of_getState_jobj _ _ _ g1
    unfold GetProduct
    rw [hB]
    rfl
  · unfold InitLedger
    rw [getState_putState_ne _ "8" "2" _ (by decide),
      getState_putState_ne _ "7" "2" _ (by decide),
      getState_putState_ne _ "6" "2" _ (by decide),
      getState_putState_ne _ "5" "2" _ (by decide),
      getState_putState_ne _ "4" "2" _ (by decide),
      getState_putState_ne _ "3" "2" _ (by decide)]
    exact getState_putState_self _ _ _
  · unfold InitLedger
    rw [getState_putState_ne _ "8" "3" _ (by decide),
      getState_putState_ne _ "7" "3" _ (by decide),
      getState_putState_ne _ "6" "3" _ (by decide),
      getState_putState_ne _ "5" "3" _ (by decide),
      getState_putState_ne _ "4" "3" _ (by decide)]
    exact getState_putState_self _ _ _
  · unfold InitLedger
    rw [getState_putState_ne _ "8" "4" _ (by decide),
      getState_putState_ne _ "7" "4" _ (by decide),
      getState_putState_ne _ "6" "4" _ (by decide),
      getState_putState_ne _ "5" "4" _ (by decide)]
    exact getState_putState_self _ _ _
  · unfold InitLedger
    rw [getState_putState_ne _ "8" "5" _ (by decide),
      getState_putState_ne _ "7" "5" _ (by decide),
      getState_putState_ne _ "6" "5" _ (by decide)]
    exact getState_putState_self _ _ _
  · unfold InitLedger
    rw [getState_putState_ne _ "8" "6" _ (by decide),
      getState_putState_ne _ "7" "6" _ (by decide)]
    exact getState_putState_self _ _ _
  · unfold InitLedger
    rw [getState_putState_ne _ "8" "7" _ (by decide)]
    exact getState_putState_self _ _ _
  · unfold InitLedger
    exact getState_putState_self _ _ _

end Food

namespace Food

/-- Top-level field names of a stored JSON object. -/
def topFields : Json → List String
  | .jobj fs => fs.map Prod.fst
  | _ => []

theorem topFields_productJsonCreate (p : Product) :
    topFields (productJsonCreate p) =
      ["name", "quantity", "price", "location", "actor", "imageUrl"] := rfl

theorem topFields_productJsonUpdate (p : Product) :
    topFields (productJsonUpdate p) =
      ["quantity", "price", "name", "location", "actor", "imageUrl"] := rfl

/-- C9 (amended): every value a successful `CreateProduct` or
`UpdateProduct` stores under the id is a JSON object whose top-level
fields are exactly `name, quantity, price, location, actor, imageUrl`
(up to emission order), with no `id` field — the id lives only as the
store key — and a successful `TransferProduct` stores exactly those six
fields provided the record it read was a well-formed product record.
Without that proviso the claim fails: on a stored object missing
fields, `TransferProduct` succeeds and stores only the fields present
(see the counterexample). -/
theorem stored_value_fields (st : Store)
    (id name quantity actor imageUrl newActor : String)
    (price : JNum) (location : Location) :
    (∀ msg st2,
      CreateProduct st name id quantity price location actor imageUrl =
        .ok (msg, st2) →
      ∃ v, getState st2 id = some (.json v) ∧
        (topFields v).Perm
          ["name", "quantity", "price", "location", "actor", "imageUrl"] ∧
        "id" ∉ topFields v) ∧
    (∀ st2,
      UpdateProduct st id quantity price name location actor imageUrl =
        .ok st2 →
      ∃ v, getState st2 id = some (.json v) ∧
        (topFields v).Perm
          ["name", "quantity", "price", "location", "actor", "imageUrl"] ∧
        "id" ∉ topFields v) ∧
    (∀ fs p old st2,
      getState st id = some (.json (.jobj fs)) →
      decodeProduct (.jobj fs) = some p →
      TransferProduct st id newActor = .ok (old, st2) →
      ∃ v, getState st2 id = some (.json v) ∧
        (topFields v).Perm
          ["name", "quantity", "price", "location", "actor", "imageUrl"] ∧
        "id" ∉ topFields v) := by
  refine ⟨?_, ?_, ?_⟩
  · intro msg st2 h
    unfold CreateProduct at h
    by_cases he : ProductExists st id = true
    · simp [he] at h
    · simp [he] at h
      refine ⟨productJsonCreate ⟨name, quantity, price, location, actor,
        imageUrl⟩, ?_, List.Perm.refl _, ?_⟩
      · rw [← h.2]
        exact getState_putState_self _ _ _
      · rw [topFields_productJsonCreate]
        decide
  · intro st2 h
    unfold UpdateProduct UpdateProductJs at h
    by_cases he : ProductExists st id = true
    · simp only [he, if_true, Except.ok.injEq] at h
      refine ⟨productJsonUpdate ⟨name, quantity, price, location, actor,
        imageUrl⟩, ?_, ?_, ?_⟩
      · rw [← h]
        exact getState_putState_self _ _ _
      · rw [topFields_productJsonUpdate]
        decide
      · rw [topFields_productJsonUpdate]
        decide
    · simp [he] at h
  · intro fs p old st2 hget hdec htr
    rw [transferProduct_eq_of_decode st id newActor fs p hget hdec] at htr
    simp only [Except.ok.injEq, Prod.mk.injEq] at htr
    obtain ⟨-, h2⟩ := htr
    refine ⟨productJsonUpdate { p with actor := newActor }, ?_, ?_, ?_⟩
    · rw [← h2]
      exact getState_putState_self _ _ _
    · rw [topFields_productJsonUpdate]
      decide
    · rw [topFields_productJsonUpdate]
      decide

/-- A store whose record under `"s1"` is well-formed JSON but carries
only an `actor` field. -/
def sparseStore : Store :=
  [("s1", Bytes.json (.jobj [("actor", .jstr "X")]))]

/-- C9 counterexample: the claim as stated is false of the code.  On
`sparseStore`, `TransferProduct` succeeds — `JSON.parse` yields an
object, the five missing properties read as `undefined` and are
dropped by `JSON.stringify` at the write — and the value it stores has
the single top-level field `actor`, not the six the claim requires. -/
theorem stored_value_fields_counterexample :
    TransferProduct sparseStore "s1" "RETAILER" =
      .ok (some (.jstr "X"), putState sparseStore "s1"
        (.json (.jobj [("actor", .jstr "RETAILER")]))) ∧
    topFields (.jobj [("actor", .jstr "RETAILER")]) = ["actor"] ∧
    ¬ (topFields (.jobj [("actor", .jstr "RETAILER")])).Perm
        ["name", "quantity", "price", "location", "actor", "imageUrl"] :=
  ⟨rfl, rfl, by decide⟩

/-- C10: `CreateProduct` and `UpdateProduct` validate nothing but
existence: for arbitrary field values — a negative price and an actor
outside the enumeration included — `CreateProduct` fails exactly when
the id exists, `UpdateProduct` fails exactly when it does not, and the
values are stored as given (their decode returns them unchanged). -/
theorem create_update_no_validation (st : Store)
    (id name quantity actor imageUrl : String) (price : JNum)
    (location : Location) :
    (CreateProduct st name id quantity price location actor imageUrl =
        .error (.alreadyExists id) ↔ ProductExists st id = true) ∧
    (ProductExists st id = false →
      CreateProduct st name id quantity price location actor imageUrl =
        .ok ("Product with " ++ id ++ " created successfully",
          putState st id (.json (productJsonCreate
            ⟨name, quantity, price, location, actor, imageUrl⟩)))) ∧
    (UpdateProduct st id quantity price name location actor imageUrl =
        .error (.notFound id) ↔ ProductExists st id = false) ∧
    (ProductExists st id = true →
      UpdateProduct st id quantity price name location actor imageUrl =
        .ok (putState st id (.json (productJsonUpdate
          ⟨name, quantity, price, location, actor, imageUrl⟩)))) ∧
    decodeProduct (productJsonCreate
        ⟨name, quantity, price, location, actor, imageUrl⟩) =
      some ⟨name, quantity, price, location, actor, imageUrl⟩ ∧
    decodeProduct (productJsonUpdate
        ⟨name, quantity, price, location, actor, imageUrl⟩) =
      some ⟨name, quantity, price, location, actor, imageUrl⟩ := by
  refine ⟨?_, ?_, ?_, ?_, decodeProduct_productJsonCreate _,
    decodeProduct_productJsonUpdate _⟩ <;>
  by_cases he : ProductExists st id = true <;>
    simp [CreateProduct, UpdateProduct, UpdateProductJs, optField, he,
      productJsonUpdate, locJson]

/-- C10 witness: a negative price and an actor string outside
`PRODUCER/RETAILER/CONSUMER` are accepted and stored verbatim on a
fresh id. -/
theorem create_update_no_validation_witness :
    ProductExists ([] : Store) "p1" = false ∧
    CreateProduct [] "N" "p1" "Q" ⟨-5, 0⟩ ⟨⟨0, 0⟩, ⟨0, 0⟩⟩ "SMUGGLER" "u" =
      .ok ("Product with " ++ "p1" ++ " created successfully",
        putState [] "p1" (.json (productJsonCreate
          ⟨"N", "Q", ⟨-5, 0⟩, ⟨⟨0, 0⟩, ⟨0, 0⟩⟩, "SMUGGLER", "u"⟩))) ∧
    decodeProduct (productJsonCreate
        ⟨"N", "Q", ⟨-5, 0⟩, ⟨⟨0, 0⟩, ⟨0, 0⟩⟩, "SMUGGLER", "u"⟩) =
      some ⟨"N", "Q", ⟨-5, 0⟩, ⟨⟨0, 0⟩, ⟨0, 0⟩⟩, "SMUGGLER", "u"⟩ := by
  have h := create_update_no_validation [] "p1" "N" "Q" "SMUGGLER" "u"
    ⟨-5, 0⟩ ⟨⟨0, 0⟩, ⟨0, 0⟩⟩
  exact ⟨rfl, h.2.1 rfl, h.2.2.2.2.1⟩

/-- C1: the claim is false of the code and the in-code comments show it
is a code bug.  `UpdateProduct` (and `TransferProduct` through it)
writes the object with plain `JSON.stringify` in the insertion order
`quantity, price, name, location, actor, imageUrl`; `sort-keys-recursive`
and `json-stringify-deterministic` are imported but never called, even
though the comment on the write claims alphabetic order.  The stored
bytes differ from the canonical (recursively key-sorted) serialization,
and the byte output depends on the construction order of the object
(`CreateProduct` and `UpdateProduct` serialize the same logical record
to different bytes). -/
theorem updateProduct_write_not_canonical :
    UpdateProduct demoStoreC3 "m1" "2 litres" ⟨40, 0⟩ "Milk" ⟨⟨5, 0⟩, ⟨6, 0⟩⟩
        "PRODUCER" "img" =
      .ok (putState demoStoreC3 "m1" (.json (productJsonUpdate demoP))) ∧
    topFields (productJsonUpdate demoP) =
      ["quantity", "price", "name", "location", "actor", "imageUrl"] ∧
    topFields (Json.sortKeysRec (productJsonUpdate demoP)) =
      ["actor", "imageUrl", "location", "name", "price", "quantity"] ∧
    Json.render (productJsonUpdate demoP) ≠
      Json.render (Json.sortKeysRec (productJsonUpdate demoP)) ∧
    Json.render (productJsonUpdate demoP) ≠
      Json.render (productJsonCreate demoP) := by
  refine ⟨rfl, rfl, rfl, ?_, ?_⟩ <;> decide

end Food
